import Mathlib

/-!
Verification of the dynamic-schema record platform (mini-crm): a shallow
embedding of the validation, link-reconciliation, display-rendering and
search-indexing core, with theorems checking the specification's claims
against it.

Conventions of the embedding:
* Python/JSON values are the inductive `PyVal`; Python dicts are association
  lists (`PyDict`) in insertion order, with last-write-wins assignment
  (`dictSet`).  Python `==` on such values is `pyValBEq` / `pyPairsBEq`;
  it is structural, which coincides with Python's order-insensitive dict
  equality on all dicts compared in the theorems below (they are built by
  the same deterministic construction on both sides).
* Database rows are Lean structures mirroring the SQLModel classes; the
  database session is a `Store` of row lists, and SQLAlchemy `select`
  filters become `List.filter`.
* `dateutil.parser.parse` is an external library; it enters as an oracle
  argument `parse_ok : String → Bool` (claims never involve date columns).
* Recursive display rendering is embedded with explicit fuel; every
  recursive call consumes one unit, `RRes.outOfFuel` signals exhaustion and
  `RRes.exn` a propagating Python exception.
-/

namespace MiniCRM

/-- Python/JSON value as stored in a Record's `data` JSONB map or sent in a
request payload. `vDict` keeps insertion order, as Python dicts do. -/
inductive PyVal where
  | vNone
  | vBool (b : Bool)
  | vInt (n : Int)
  | vFloat (q : Rat)
  | vStr (s : String)
  | vList (xs : List PyVal)
  | vDict (xs : List (String × PyVal))

/-- Python dict with string keys, in insertion order. -/
abbrev PyDict := List (String × PyVal)

mutual
/-- Python `==` on values (structural; see the header note on dicts). -/
def pyValBEq : PyVal → PyVal → Bool
  | .vNone, .vNone => true
  | .vBool a, .vBool b => a == b
  | .vInt a, .vInt b => a == b
  | .vFloat a, .vFloat b => a == b
  | .vStr a, .vStr b => a == b
  | .vList a, .vList b => pyListBEq a b
  | .vDict a, .vDict b => pyPairsBEq a b
  | _, _ => false

/-- Python `==` on lists of values. -/
def pyListBEq : List PyVal → List PyVal → Bool
  | [], [] => true
  | x :: xs, y :: ys => pyValBEq x y && pyListBEq xs ys
  | _, _ => false

/-- Python `==` on dicts (as ordered association lists). -/
def pyPairsBEq : List (String × PyVal) → List (String × PyVal) → Bool
  | [], [] => true
  | (k1, v1) :: xs, (k2, v2) :: ys => k1 == k2 && pyValBEq v1 v2 && pyPairsBEq xs ys
  | _, _ => false
end


mutual
/-- Python `str()` of a value (floats and nested containers are rendered
best-effort; no theorem below depends on their exact text). -/
def pyStr : PyVal → String
  | .vNone => "None"
  | .vBool b => if b then "True" else "False"
  | .vInt n => toString n
  | .vFloat q => toString q
  | .vStr s => s
  | .vList xs => "[" ++ pyReprJoin xs ++ "]"
  | .vDict xs => "\x7b" ++ pyReprPairsJoin xs ++ "\x7d"

/-- Python `repr()` of a value (strings are quoted). -/
def pyRepr : PyVal → String
  | .vStr s => "'" ++ s ++ "'"
  | .vNone => "None"
  | .vBool b => if b then "True" else "False"
  | .vInt n => toString n
  | .vFloat q => toString q
  | .vList xs => "[" ++ pyReprJoin xs ++ "]"
  | .vDict xs => "\x7b" ++ pyReprPairsJoin xs ++ "\x7d"

/-- Comma-joined `repr`s of list elements. -/
def pyReprJoin : List PyVal → String
  | [] => ""
  | [x] => pyRepr x
  | x :: xs => pyRepr x ++ ", " ++ pyReprJoin xs

/-- Comma-joined `key: repr(value)` pairs of a dict. -/
def pyReprPairsJoin : List (String × PyVal) → String
  | [] => ""
  | [(k, v)] => "'" ++ k ++ "': " ++ pyRepr v
  | (k, v) :: xs => "'" ++ k ++ "': " ++ pyRepr v ++ ", " ++ pyReprPairsJoin xs
end

/-- Python `isinstance(v, int)`: `bool` is a subclass of `int` in Python, so
`True`/`False` pass this check as well. -/
def isinstance_int : PyVal → Bool
  | .vInt _ => true
  | .vBool _ => true
  | _ => false

/-- Python `isinstance(v, (int, float))`. -/
def isinstance_num : PyVal → Bool
  | .vInt _ => true
  | .vBool _ => true
  | .vFloat _ => true
  | _ => false

/-- Python `isinstance(v, str)`. -/
def isinstance_str : PyVal → Bool
  | .vStr _ => true
  | _ => false

/-- Python `isinstance(v, bool)`. -/
def isinstance_bool : PyVal → Bool
  | .vBool _ => true
  | _ => false

/-- Python truthiness of an optional integer column (`if column.enum_id:`):
`None` and `0` are falsy. -/
def truthy : Option Nat → Bool
  | none => false
  | some n => n != 0

/-- Dict lookup (`d.get(k)`): first (and in a real dict only) entry with
key `k`. -/
def dictGet (d : PyDict) (k : String) : Option PyVal :=
  (d.find? (fun kv => kv.1 == k)).map (fun kv => kv.2)

/-- Dict lookup with a default (`d.get(k, dflt)`). -/
def dictGetD (d : PyDict) (k : String) (dflt : PyVal) : PyVal :=
  (dictGet d k).getD dflt

/-- Membership test (`k in d`). -/
def dictHasKey (d : PyDict) (k : String) : Bool :=
  d.any (fun kv => kv.1 == k)

/-- Dict assignment (`d[k] = v`): replaces in place when the key exists
(keeping its position, as Python does), otherwise appends. -/
def dictSet (d : PyDict) (k : String) (v : PyVal) : PyDict :=
  if d.any (fun kv => kv.1 == k) then
    d.map (fun kv => if kv.1 == k then (k, v) else kv)
  else
    d ++ [(k, v)]

/-- ASCII lowering of one character (Python `str.lower()`; the embedded
names are ASCII, non-ASCII lowering is not modelled). -/
def py_lower_char (c : Char) : Char :=
  if 'A' ≤ c && c ≤ 'Z' then Char.ofNat (c.toNat + 32) else c

/-- Python `s.lower()`. -/
def py_lower (s : String) : String :=
  String.mk (s.toList.map py_lower_char)

/-- Row of the `table` table (models/schema.py `Table`). -/
structure Table where
  id : Nat
  name : String
  display_format : Option String
  display_format_secondary : Option String

/-- Row of the `column` table (models/schema.py `Column`). -/
structure Column where
  id : Nat
  table_id : Nat
  name : String
  data_type : String
  is_list : Bool
  constraints : Option String
  enum_id : Option Nat
  reference_table_id : Option Nat
  reference_link_table_id : Option Nat
  required : Bool
  unique : Bool
  searchable : Bool

/-- Row of the `record` table (models/record.py `Record`); `created_at` and
`updated_at` are kept as their opaque isoformat strings. -/
structure Record where
  id : Nat
  table_id : Nat
  data : PyDict
  created_at : String
  updated_at : String

/-- Row of the `enummodel` table (models/enum.py `EnumModel`). -/
structure EnumModel where
  id : Nat
  name : String

/-- Row of the `enumvaluemodel` table (models/enum.py `EnumValueModel`). -/
structure EnumValueModel where
  id : Nat
  enum_id : Nat
  value : String

/-- Row of the `linktable` table (models/link.py `LinkTable`). -/
structure LinkTable where
  id : Nat
  name : String
  from_table_id : Nat
  to_table_id : Nat

/-- Row of the `linkrecord` table (models/link.py `LinkRecord`).  Freshly
inserted rows are modelled with `id := 0`: the session assigns real ids at
commit and no claim below depends on them. -/
structure LinkRecord where
  id : Nat
  link_table_id : Nat
  from_record_id : Nat
  to_record_id : Nat
  data : PyDict

/-- Snapshot of the database session: the rows of every table the claims
touch (LinkColumn rows and the relationship-junction tables play no part in
any claim and are omitted). -/
structure Store where
  tables : List Table
  columns : List Column
  records : List Record
  enums : List EnumModel
  enum_values : List EnumValueModel
  link_tables : List LinkTable
  link_records : List LinkRecord

/-- Values of the Enum bound to a column (`{v.value for v in enum.values}`,
in row order). -/
def enumValuesOf (store : Store) (enum_id : Nat) : List String :=
  (store.enum_values.filter (fun v => v.enum_id == enum_id)).map (fun v => v.value)

/-- Loop body of `validate_record_data`'s main-data loop (records.py lines
58–111): the dispatch on the column's declared data type.  Note what the
source does NOT do here: for `reference` columns only the integer shape of
the value is checked — the ids are never looked up in the record store —
and no branch consults the `unique` flag.  (In the enum message the allowed
set is rendered as comma-joined values rather than Python's set repr; the
claims concern only which errors occur, never that repr.) -/
def validate_field_value (store : Store) (column : Column) (key : String)
    (value : PyVal) (parse_ok : String → Bool) : List String :=
  let expected_type := py_lower column.data_type
  if expected_type == "integer" then
    if !isinstance_int value then ["Field '" ++ key ++ "' must be an integer."] else []
  else if expected_type == "float" || expected_type == "currency" then
    if !isinstance_num value then ["Field '" ++ key ++ "' must be a number."] else []
  else if expected_type == "string" then
    if !isinstance_str value then ["Field '" ++ key ++ "' must be a string."] else []
  else if expected_type == "boolean" then
    if !isinstance_bool value then ["Field '" ++ key ++ "' must be a boolean."] else []
  else if expected_type == "date" then
    match value with
    | .vStr s =>
        if parse_ok s then []
        else ["Field '" ++ key ++ "' has invalid date format: '" ++ s ++ "'."]
    | _ => ["Field '" ++ key ++ "' must be a date string in ISO format."]
  else if expected_type == "datetime" then
    match value with
    | .vStr s =>
        if parse_ok s then []
        else ["Field '" ++ key ++ "' has invalid datetime format: '" ++ s ++ "'."]
    | _ => ["Field '" ++ key ++ "' must be a datetime string in ISO format."]
  else if expected_type == "enum" || expected_type == "picklist" then
    match value with
    | .vStr s =>
        if truthy column.enum_id then
          let eid := column.enum_id.getD 0
          match store.enums.find? (fun e => e.id == eid) with
          | none => ["Enum for column '" ++ key ++ "' not found."]
          | some _ =>
              let allowed_values := enumValuesOf store eid
              if allowed_values.contains s then []
              else
                ["Field '" ++ key ++ "' has invalid enum value: '" ++ s ++
                  "'. Allowed values: " ++ String.intercalate ", " allowed_values]
        else []
    | _ => ["Field '" ++ key ++ "' must be a string."]
  else if expected_type == "reference" then
    if column.is_list then
      match value with
      | .vList xs =>
          xs.filterMap (fun item =>
            if isinstance_int item then none
            else some ("All items in '" ++ key ++ "' must be integers."))
      | _ => ["Field '" ++ key ++ "' must be a list of IDs."]
    else
      if !isinstance_int value then ["Field '" ++ key ++ "' must be an integer."] else []
  else []

/-- Required-field pass of `validate_record_data` (records.py lines 47–49):
one "Missing required field" error per required column whose name is absent
from the payload. -/
def missing_required_errors (columns : List Column) (data : PyDict) :
    List String :=
  columns.filterMap (fun col =>
    if col.required && !dictHasKey data col.name then
      some ("Missing required field: " ++ col.name)
    else none)

/-- Per-key step of `validate_record_data`'s main-data loop (records.py
lines 52–57 plus the type dispatch): unknown fields are flagged, known ones
dispatched on their column's type. -/
def validate_field_errors (store : Store) (columns : List Column)
    (parse_ok : String → Bool) (kv : String × PyVal) : List String :=
  match columns.find? (fun c => c.name == kv.1) with
  | none => ["Invalid field: " ++ kv.1]
  | some column => validate_field_value store column kv.1 kv.2 parse_ok

/-- Main-data part of `validate_record_data` (records.py lines 31–111): the
required-field pass over the table's columns followed by the per-key type
dispatch, all errors collected in order.  The link-data half of the source
function validates the `*_link_data` side channel; no claim depends on it
and it is not modelled.  The caller raises HTTP 400 when the returned list
is non-empty. -/
def validate_record_data (store : Store) (table : Table) (data : PyDict)
    (parse_ok : String → Bool) : List String :=
  let columns := store.columns.filter (fun c => c.table_id == table.id)
  missing_required_errors columns data ++
    data.flatMap (validate_field_errors store columns parse_ok)

/-- HTTP error raised by an endpoint (`HTTPException(status_code, detail)`). -/
structure HTTPException where
  status_code : Nat
  detail : String
deriving DecidableEq

/-- Link payload entries of one relationship field, normalized: the source
loop reads `link_item.get("to_record_id")` and splits off the remaining
attribute keys.  `validate_record_data`'s link-data half has already run at
this point: it inserts the integer `to_record_id` into each entry (inferring
it from the main field when absent) and raises HTTP 400 otherwise, so each
entry is modelled as an integer target id with its attribute dict. -/
abbrev LinkItems := List (Nat × PyDict)

/-- Filter of the source's `select(LinkRecord).where(...)`: the edges of one
link table going out of one record. -/
def link_scope (ltid rid : Nat) (lr : LinkRecord) : Bool :=
  lr.link_table_id == ltid && lr.from_record_id == rid

/-- Writes performed by one iteration of `process_link_data`'s field loop:
inserted rows, (row id, new attribute dict) updates, deleted rows. -/
structure FieldOps where
  inserts : List LinkRecord
  updates : List (Nat × PyDict)
  deletes : List LinkRecord

/-- Row built by `process_link_data`'s insert branch (`LinkRecord(...)`,
records.py lines 340–345). -/
def link_insert (ltid rid : Nat) (nl : Nat × PyDict) : LinkRecord :=
  { id := 0, link_table_id := ltid, from_record_id := rid,
    to_record_id := nl.1, data := nl.2 }

/-- Effect of `process_link_data`'s delete and update loops (records.py
lines 348–364) on one existing in-scope LinkRecord: deleted when its target
is in `to_remove`, its attribute dict overwritten by the first payload entry
with the same target when they differ (`lr.data != new_additional_data`),
untouched otherwise. -/
def link_mutate (new_links : LinkItems) (to_remove : List Nat)
    (lr : LinkRecord) : Option LinkRecord :=
  if to_remove.contains lr.to_record_id then none
  else
    match new_links.filter (fun nl => nl.1 == lr.to_record_id) with
    | [] => some lr
    | nl :: _ =>
        if pyPairsBEq lr.data nl.2 then some lr
        else some { lr with data := nl.2 }

/-- Loop body of `process_link_data` (records.py lines 291–364) for one
relationship field, after the column and its LinkTable have been resolved
(fields whose column lookup, link-table lookup or value shape fails are
skipped with `continue`; validation has already reported them): computes
`to_add`/`to_remove` as Python set differences, inserts a LinkRecord per
new target id, overwrites a kept edge's attributes only when they differ,
and deletes the obsolete edges.  Returns the session's link rows after the
loop together with the performed writes. -/
def process_link_field (links : List LinkRecord) (ltid rid : Nat)
    (new_links : LinkItems) : List LinkRecord × FieldOps :=
  let existing_links := links.filter (link_scope ltid rid)
  let existing_to_ids := existing_links.map (fun lr => lr.to_record_id)
  let new_to_ids := new_links.map (fun nl => nl.1)
  let to_add := new_to_ids.filter (fun i => !existing_to_ids.contains i)
  let to_remove := existing_to_ids.filter (fun i => !new_to_ids.contains i)
  let inserts := (new_links.filter (fun nl => to_add.contains nl.1)).map
    (link_insert ltid rid)
  let updates := existing_links.filterMap (fun lr =>
    if to_remove.contains lr.to_record_id then none
    else
      match new_links.filter (fun nl => nl.1 == lr.to_record_id) with
      | [] => none
      | nl :: _ =>
          if pyPairsBEq lr.data nl.2 then none else some (lr.id, nl.2))
  let deletes := existing_links.filter (fun lr => to_remove.contains lr.to_record_id)
  let links2 := links.filterMap (fun lr =>
    if link_scope ltid rid lr then link_mutate new_links to_remove lr
    else some lr)
  (links2 ++ inserts, ⟨inserts, updates, deletes⟩)

/-- Whole `process_link_data` loop over the relationship fields of one
payload, each field already resolved to its LinkTable id and normalized
entries: threads the session state left to right (SQLAlchemy autoflush
makes each field's `select` see the previous field's pending writes) and
records each field's writes.  The closing `session.commit` is modelled as
always succeeding. -/
def process_link_data (links : List LinkRecord) (rid : Nat)
    (fields : List (Nat × LinkItems)) : List LinkRecord × List FieldOps :=
  match fields with
  | [] => (links, [])
  | (ltid, items) :: rest =>
      let step := process_link_field links ltid rid items
      let restRun := process_link_data step.1 rid rest
      (restRun.1, step.2 :: restRun.2)

/-- Endpoint `delete_record` (records.py lines 527–576): resolves the table
by name and the record by id within it, explicitly deletes every LinkRecord
in which the record is either endpoint, then deletes the record.  The
Elasticsearch removal and the broadcast are background tasks and do not
change the database state. -/
def delete_record (store : Store) (table_name : String) (record_id : Nat) :
    Except HTTPException Store :=
  match store.tables.find? (fun t => t.name == table_name) with
  | none => .error ⟨404, "Table not found"⟩
  | some table =>
    match store.records.find? (fun r => r.id == record_id && r.table_id == table.id) with
    | none => .error ⟨404, "Record not found"⟩
    | some _ =>
        .ok { store with
          link_records := store.link_records.filter (fun lr =>
            !(lr.from_record_id == record_id || lr.to_record_id == record_id)),
          records := store.records.filter (fun r => !(r.id == record_id)) }

/-- Endpoint `delete_table_endpoint` (schema.py lines 74–102):
`session.delete(table)` followed by `commit`.  None of the `Table`
relationships configures a delete cascade and the dependent rows' foreign
keys (`Column.table_id`, `Record.table_id`, `LinkTable.from_table_id`/
`to_table_id`, `Column.reference_table_id`) are NOT NULL or carry no
ON DELETE action, so the flush tries to null them out (or the database
rejects the dangling references) and the commit raises IntegrityError
whenever any dependent row exists; the handler then rolls back and returns
HTTP 400 "Table deletion failed" with the store unchanged. -/
def delete_table_endpoint (store : Store) (table_id : Nat) :
    Except HTTPException Store :=
  match store.tables.find? (fun t => t.id == table_id) with
  | none => .error ⟨404, "Table not found"⟩
  | some _ =>
      if store.columns.any (fun c => c.table_id == table_id)
          || store.records.any (fun r => r.table_id == table_id)
          || store.link_tables.any (fun lt =>
                lt.from_table_id == table_id || lt.to_table_id == table_id)
          || store.columns.any (fun c => c.reference_table_id == some table_id) then
        .error ⟨400, "Table deletion failed"⟩
      else
        .ok { store with tables := store.tables.filter (fun t => !(t.id == table_id)) }

/-- Field list the search endpoint queries (records.py lines 590–597): the
lower-cased searchable column paths with `display_value` and
`display_value_secondary` always appended. -/
def search_records_fields (store : Store) (table : Table) : List String :=
  let columns := store.columns.filter (fun c => c.table_id == table.id && c.searchable)
  let searchable_fields := columns.map (fun c => "data." ++ py_lower c.name)
  searchable_fields ++ ["display_value", "display_value_secondary"]

/-- Guard section of endpoint `search_records` (records.py lines 579–602),
up to the Elasticsearch call: table lookup, field-list construction, and
the `if not searchable_fields` rejection branch. -/
def search_records_guard (store : Store) (table_name : String) :
    Except HTTPException (List String) :=
  match store.tables.find? (fun t => t.name == table_name) with
  | none => .error ⟨404, "Table not found"⟩
  | some table =>
      let searchable_fields := search_records_fields store table
      if searchable_fields.isEmpty then
        .error ⟨400, "No searchable fields defined for this table"⟩
      else
        .ok searchable_fields

/-- Python exception kinds the embedded code can raise. -/
inductive PyErr where
  | keyError
  | valueError
  | typeError
  | attributeError
  | indexError
deriving DecidableEq

/-- Result of a fueled computation: a value, a propagating Python exception,
or fuel exhaustion (the embedding's stand-in for non-termination). -/
inductive RRes (α : Type) where
  | ok (a : α)
  | exn (e : PyErr)
  | outOfFuel
deriving DecidableEq

/-- Sequencing of fueled computations; exceptions and exhaustion propagate. -/
def RRes.bind {α β : Type} : RRes α → (α → RRes β) → RRes β
  | .ok a, f => f a
  | .exn e, _ => .exn e
  | .outOfFuel, _ => .outOfFuel

/-- Mapping over the value of a fueled computation. -/
def RRes.map {α β : Type} (f : α → β) : RRes α → RRes β
  | .ok a => .ok (f a)
  | .exn e => .exn e
  | .outOfFuel => .outOfFuel

/-- Token of a parsed format template: a literal character or a
`\x7bfield\x7d` replacement field. -/
inductive FTok where
  | lit (c : Char)
  | field (name : String)
deriving DecidableEq

/-- Replacement-field name: the text before the `!conversion` / `:spec`
markers.  Conversions and format specs are parsed away but not applied
(no template in any theorem below carries one). -/
def field_name_of (acc : List Char) : String :=
  String.mk (acc.takeWhile (fun c => c ≠ '!' && c ≠ ':'))

/-- Parser of `str.format` templates (the scanning loop of
`string.Formatter.parse`): doubled braces are literals, `\x7b...\x7d`
delimits a replacement field, a lone brace raises ValueError.  Nested
braces inside a format spec are not modelled (no theorem uses a spec).
The second argument is `none` in literal mode and `some acc` inside a
field. -/
def format_parse : List Char → Option (List Char) → Except PyErr (List FTok)
  | [], none => .ok []
  | [], some _ => .error .valueError
  | '{' :: '{' :: rest, none => (format_parse rest none).map (fun ts => .lit '{' :: ts)
  | '}' :: '}' :: rest, none => (format_parse rest none).map (fun ts => .lit '}' :: ts)
  | '{' :: rest, none => format_parse rest (some [])
  | '}' :: _, none => .error .valueError
  | c :: rest, none => (format_parse rest none).map (fun ts => .lit c :: ts)
  | '}' :: rest, some acc =>
      (format_parse rest none).map (fun ts => .field (field_name_of acc) :: ts)
  | c :: rest, some acc => format_parse rest (some (acc ++ [c]))

/-- Split of a character list at every occurrence of `sep`, keeping empty
pieces — the behaviour of Python's `str.split(sep)`. -/
def split_chars (sep : Char) : List Char → List (List Char)
  | [] => [[]]
  | c :: rest =>
      let r := split_chars sep rest
      if c = sep then [] :: r
      else
        match r with
        | [] => [[c]]
        | g :: gs => (c :: g) :: gs

/-- Python `s.split(sep)` for a single-character separator. -/
def py_split (s : String) (sep : Char) : List String :=
  (split_chars sep s.toList).map String.mk

/-- Walk of `CustomFormatter.get_value` (elasticsearch.py lines 24–37): the
key is split on dots, each part is read with `obj.get(part, "")` on dicts
and `getattr(obj, part, "")` otherwise (the embedded JSON values carry no
Python attributes, so the default applies), and the walk stops early once
the empty string is reached. -/
def get_value_walk : PyVal → List String → PyVal
  | obj, [] => obj
  | obj, part :: rest =>
      let obj2 := match obj with
        | .vDict d => dictGetD d part (.vStr "")
        | _ => .vStr ""
      if pyValBEq obj2 (.vStr "") then obj2 else get_value_walk obj2 rest

/-- `CustomFormatter.get_value` for a string key, applied to the keyword
arguments (the record's resolved data map). -/
def formatter_get_value (kwargs : PyDict) (key : String) : PyVal :=
  get_value_walk (.vDict kwargs) (py_split key '.')

/-- `string.Formatter.get_field`, as invoked by `format(template, **data)`:
the field name is split on the FIRST dot before `get_value` ever runs, so
only the head reaches `CustomFormatter.get_value`; the remaining parts are
resolved with plain `getattr`, which raises AttributeError on the dict and
scalar values the data map holds (Python method names such as `get` are
not modelled; no theorem uses one).  A field name that is empty
(auto-numbering) or all digits (an explicit positional index) indexes the
positional-argument tuple, which is empty, so it raises IndexError. -/
def formatter_get_field (kwargs : PyDict) (fname : String) : Except PyErr PyVal :=
  match py_split fname '.' with
  | [] => .error .valueError
  | first :: rest =>
      if first == "" || first.toList.all (fun c => c.isDigit) then .error .indexError
      else
        let obj := formatter_get_value kwargs first
        match rest with
        | [] => .ok obj
        | _ :: _ => .error .attributeError

/-- Evaluation of a parsed template against the keyword arguments: literal
characters pass through, each field is resolved by `formatter_get_field`
and rendered with `str()` (the default conversion and empty format spec). -/
def format_apply (kwargs : PyDict) : List FTok → Except PyErr String
  | [] => .ok ""
  | .lit c :: rest => (format_apply kwargs rest).map (fun s => c.toString ++ s)
  | .field fname :: rest =>
      (formatter_get_field kwargs fname).bind (fun obj =>
        (format_apply kwargs rest).map (fun s => pyStr obj ++ s))

/-- `CustomFormatter(...).format(template, **kwargs)`. -/
def format_string (template : String) (kwargs : PyDict) : Except PyErr String :=
  (format_parse template.toList none).bind (format_apply kwargs)

mutual
/-- Display renderer `generate_display_value` (elasticsearch.py lines
40–98): resolves reference columns into display strings (recursively), then
formats the table's `display_format` against the resolved data; a missing
or empty template yields `""`, and a KeyError from the formatter falls back
to `"<table name> item"`.  Fuel is consumed on every recursive step. -/
def generate_display_value (fuel : Nat) (store : Store) (table : Table)
    (record : Record) : RRes String :=
  match fuel with
  | 0 => .outOfFuel
  | f + 1 =>
      (resolve_refs f store (store.columns.filter (fun c => c.table_id == table.id))
          record record.data).bind (fun data =>
        match table.display_format with
        | none => .ok ""
        | some tmpl =>
            if tmpl == "" then .ok ""
            else
              match format_string tmpl data with
              | .ok s => .ok s
              | .error .keyError => .ok (table.name ++ " item")
              | .error e => .exn e)

/-- Reference-resolution loop of `generate_display_value` (lines 42–87):
for each `reference` column present in the data, a plain table reference
replaces the id (or id list) by the referenced records' rendered display
values, and a link-table reference replaces it by the rendered display
values of all linked records.  A missing referenced record leaves the value
in place (single) or is skipped (list); a missing referenced table raises
AttributeError (the recursive call dereferences `None`).  A non-iterable
value in a list reference raises TypeError; iterating a string or dict
yields characters/keys that match no record id, leaving the empty join.
Values that are neither int nor list in a single reference cannot match a
row id and leave the data unchanged. -/
def resolve_refs (fuel : Nat) (store : Store) (cols : List Column)
    (record : Record) (data : PyDict) : RRes PyDict :=
  match fuel with
  | 0 => .outOfFuel
  | f + 1 =>
      match cols with
      | [] => .ok data
      | col :: rest =>
          if col.data_type == "reference" && dictHasKey data col.name then
            let ref_value := dictGetD data col.name .vNone
            if truthy col.reference_table_id then
              if col.is_list then
                match ref_value with
                | .vList ids =>
                    (render_ref_ids f store ids).bind (fun vals =>
                      resolve_refs f store rest record
                        (dictSet data col.name (.vStr (String.intercalate ", " vals))))
                | .vStr _ =>
                    resolve_refs f store rest record (dictSet data col.name (.vStr ""))
                | .vDict _ =>
                    resolve_refs f store rest record (dictSet data col.name (.vStr ""))
                | _ => .exn .typeError
              else
                match ref_value with
                | .vInt n =>
                    match store.records.find? (fun r => (r.id : Int) == n) with
                    | none => resolve_refs f store rest record data
                    | some ref_record =>
                        match store.tables.find? (fun t => t.id == ref_record.table_id) with
                        | none => .exn .attributeError
                        | some ref_table =>
                            (generate_display_value f store ref_table ref_record).bind
                              (fun s => resolve_refs f store rest record
                                (dictSet data col.name (.vStr s)))
                | _ => resolve_refs f store rest record data
            else if truthy col.reference_link_table_id then
              let ltid := col.reference_link_table_id.getD 0
              let linked_records := store.link_records.filter (fun lr =>
                lr.link_table_id == ltid && lr.from_record_id == record.id)
              (render_linked f store linked_records).bind (fun vals =>
                resolve_refs f store rest record (dictSet data col.name
                  (.vStr (if vals.isEmpty then "" else String.intercalate ", " vals))))
            else resolve_refs f store rest record data
          else resolve_refs f store rest record data

/-- List-reference loop: renders each referenced id that resolves to a
record, skipping the rest (`if ref_record:`). -/
def render_ref_ids (fuel : Nat) (store : Store) (ids : List PyVal) :
    RRes (List String) :=
  match fuel with
  | 0 => .outOfFuel
  | f + 1 =>
      match ids with
      | [] => .ok []
      | ref_id :: rest =>
          match ref_id with
          | .vInt n =>
              match store.records.find? (fun r => (r.id : Int) == n) with
              | none => render_ref_ids f store rest
              | some r =>
                  match store.tables.find? (fun t => t.id == r.table_id) with
                  | none => .exn .attributeError
                  | some t =>
                      (generate_display_value f store t r).bind (fun s =>
                        (render_ref_ids f store rest).map (fun vals => s :: vals))
          | _ => render_ref_ids f store rest

/-- Link-reference loop: renders the `to_record` of each LinkRecord whose
record and table both resolve (`if linked_record:` / `if linked_table:`). -/
def render_linked (fuel : Nat) (store : Store) (lrs : List LinkRecord) :
    RRes (List String) :=
  match fuel with
  | 0 => .outOfFuel
  | f + 1 =>
      match lrs with
      | [] => .ok []
      | lr :: rest =>
          match store.records.find? (fun r => r.id == lr.to_record_id) with
          | none => render_linked f store rest
          | some r =>
              match store.tables.find? (fun t => t.id == r.table_id) with
              | none => render_linked f store rest
              | some t =>
                  (generate_display_value f store t r).bind (fun s =>
                    (render_linked f store rest).map (fun vals => s :: vals))
end

mutual
/-- Secondary display renderer `generate_display_value_secondary`
(elasticsearch.py lines 101–163): the source duplicates the primary
function with `display_format_secondary` and a `""` KeyError fallback. -/
def generate_display_value_secondary (fuel : Nat) (store : Store) (table : Table)
    (record : Record) : RRes String :=
  match fuel with
  | 0 => .outOfFuel
  | f + 1 =>
      (resolve_refs_secondary f store
          (store.columns.filter (fun c => c.table_id == table.id))
          record record.data).bind (fun data =>
        match table.display_format_secondary with
        | none => .ok ""
        | some tmpl =>
            if tmpl == "" then .ok ""
            else
              match format_string tmpl data with
              | .ok s => .ok s
              | .error .keyError => .ok ""
              | .error e => .exn e)

/-- Reference-resolution loop of the secondary renderer (recursing into the
secondary renderer throughout). -/
def resolve_refs_secondary (fuel : Nat) (store : Store) (cols : List Column)
    (record : Record) (data : PyDict) : RRes PyDict :=
  match fuel with
  | 0 => .outOfFuel
  | f + 1 =>
      match cols with
      | [] => .ok data
      | col :: rest =>
          if col.data_type == "reference" && dictHasKey data col.name then
            let ref_value := dictGetD data col.name .vNone
            if truthy col.reference_table_id then
              if col.is_list then
                match ref_value with
                | .vList ids =>
                    (render_ref_ids_secondary f store ids).bind (fun vals =>
                      resolve_refs_secondary f store rest record
                        (dictSet data col.name (.vStr (String.intercalate ", " vals))))
                | .vStr _ =>
                    resolve_refs_secondary f store rest record
                      (dictSet data col.name (.vStr ""))
                | .vDict _ =>
                    resolve_refs_secondary f store rest record
                      (dictSet data col.name (.vStr ""))
                | _ => .exn .typeError
              else
                match ref_value with
                | .vInt n =>
                    match store.records.find? (fun r => (r.id : Int) == n) with
                    | none => resolve_refs_secondary f store rest record data
                    | some ref_record =>
                        match store.tables.find? (fun t => t.id == ref_record.table_id) with
                        | none => .exn .attributeError
                        | some ref_table =>
                            (generate_display_value_secondary f store ref_table
                                ref_record).bind
                              (fun s => resolve_refs_secondary f store rest record
                                (dictSet data col.name (.vStr s)))
                | _ => resolve_refs_secondary f store rest record data
            else if truthy col.reference_link_table_id then
              let ltid := col.reference_link_table_id.getD 0
              let linked_records := store.link_records.filter (fun lr =>
                lr.link_table_id == ltid && lr.from_record_id == record.id)
              (render_linked_secondary f store linked_records).bind (fun vals =>
                resolve_refs_secondary f store rest record (dictSet data col.name
                  (.vStr (if vals.isEmpty then "" else String.intercalate ", " vals))))
            else resolve_refs_secondary f store rest record data
          else resolve_refs_secondary f store rest record data

/-- List-reference loop of the secondary renderer. -/
def render_ref_ids_secondary (fuel : Nat) (store : Store) (ids : List PyVal) :
    RRes (List String) :=
  match fuel with
  | 0 => .outOfFuel
  | f + 1 =>
      match ids with
      | [] => .ok []
      | ref_id :: rest =>
          match ref_id with
          | .vInt n =>
              match store.records.find? (fun r => (r.id : Int) == n) with
              | none => render_ref_ids_secondary f store rest
              | some r =>
                  match store.tables.find? (fun t => t.id == r.table_id) with
                  | none => .exn .attributeError
                  | some t =>
                      (generate_display_value_secondary f store t r).bind (fun s =>
                        (render_ref_ids_secondary f store rest).map (fun vals => s :: vals))
          | _ => render_ref_ids_secondary f store rest

/-- Link-reference loop of the secondary renderer. -/
def render_linked_secondary (fuel : Nat) (store : Store) (lrs : List LinkRecord) :
    RRes (List String) :=
  match fuel with
  | 0 => .outOfFuel
  | f + 1 =>
      match lrs with
      | [] => .ok []
      | lr :: rest =>
          match store.records.find? (fun r => r.id == lr.to_record_id) with
          | none => render_linked_secondary f store rest
          | some r =>
              match store.tables.find? (fun t => t.id == r.table_id) with
              | none => render_linked_secondary f store rest
              | some t =>
                  (generate_display_value_secondary f store t r).bind (fun s =>
                    (render_linked_secondary f store rest).map (fun vals => s :: vals))
end

/-- Document stored in Elasticsearch for one record. -/
structure EsDoc where
  table_id : Nat
  data : PyDict
  display_value : String
  display_value_secondary : String
  created_at : String
  updated_at : String

/-- State of the search engine: documents keyed by (index name, document
id). -/
abbrev EsState := List (String × Nat × EsDoc)

/-- Index naming scheme (`get_index_name`, elasticsearch.py line 16). -/
def get_index_name (table_name : String) : String :=
  "records_" ++ py_lower table_name

/-- Upsert of `es.index(index, id, body)`: replaces the document with the
same key, keeps everything else. -/
def es_index_doc (es : EsState) (index_name : String) (doc_id : Nat)
    (doc : EsDoc) : EsState :=
  (index_name, doc_id, doc) ::
    es.filter (fun e => !(e.1 == index_name && e.2.1 == doc_id))

/-- Lookup of a document by (index name, id). -/
def esGet (es : EsState) (index_name : String) (doc_id : Nat) : Option EsDoc :=
  (es.find? (fun e => e.1 == index_name && e.2.1 == doc_id)).map (fun e => e.2.2)

/-- The `searchable_data_lower` block of `index_record` (elasticsearch.py
lines 222–229): EVERY key of the payload data is lower-cased and copied
into the document (list values joined by commas) — the loop never consults
the columns' `searchable` flags. -/
def index_data_lower (data : PyDict) : PyDict :=
  data.foldl (fun acc kv =>
    dictSet acc (py_lower kv.1) (match kv.2 with
      | .vList xs => .vStr (String.intercalate ", " (xs.map pyStr))
      | v => v)) []

/-- Background task `index_record` (elasticsearch.py lines 198–248), the
per-write upsert dispatched by `create_record` and `update_record` with the
validated payload `data`: renders both display values and writes one
document carrying `index_data_lower data`.  A record or table that no
longer resolves is logged and skipped; a render exception kills the task
before the write. -/
def index_record (fuel : Nat) (store : Store) (es : EsState)
    (table_name : String) (record_id : Nat) (data : PyDict) : RRes EsState :=
  let index_name := get_index_name table_name
  match store.records.find? (fun r => r.id == record_id) with
  | none => .ok es
  | some record =>
    match store.tables.find? (fun t => t.id == record.table_id) with
    | none => .ok es
    | some table =>
        (generate_display_value fuel store table record).bind (fun dv =>
          (generate_display_value_secondary fuel store table record).bind (fun dvs =>
            .ok (es_index_doc es index_name record_id
              { table_id := record.table_id, data := index_data_lower data,
                display_value := dv, display_value_secondary := dvs,
                created_at := record.created_at, updated_at := record.updated_at })))

/-- Searchable-data block of `index_existing_records` (elasticsearch.py
lines 276–289): unlike `index_record`, the bulk path DOES filter on
`col.searchable` (and reads the values out of the stored record data). -/
def index_existing_doc_data (store : Store) (table : Table) (record : Record) :
    PyDict :=
  (store.columns.filter (fun c => c.table_id == table.id)).foldl (fun acc col =>
    if col.searchable && dictHasKey record.data col.name then
      let value := dictGetD record.data col.name .vNone
      if col.is_list then
        match value with
        | .vList xs =>
            dictSet acc (py_lower col.name) (.vStr (String.intercalate ", " (xs.map pyStr)))
        | v => dictSet acc (py_lower col.name) (.vStr (pyStr v))
      else dictSet acc (py_lower col.name) value
    else acc) []

/-- Per-record loop of `index_existing_records`: upserts document after
document; a render exception escapes the loop (only `es.index` itself is
inside the source's try/except), leaving the documents already written. -/
def index_existing_go (fuel : Nat) (store : Store) (table : Table) :
    EsState → List Record → EsState × RRes Unit
  | es, [] => (es, .ok ())
  | es, r :: rest =>
      match generate_display_value fuel store table r with
      | .ok dv =>
          match generate_display_value_secondary fuel store table r with
          | .ok dvs =>
              index_existing_go fuel store table
                (es_index_doc es (get_index_name table.name) r.id
                  { table_id := r.table_id,
                    data := index_existing_doc_data store table r,
                    display_value := dv, display_value_secondary := dvs,
                    created_at := r.created_at, updated_at := r.updated_at })
                rest
          | .exn e => (es, .exn e)
          | .outOfFuel => (es, .outOfFuel)
      | .exn e => (es, .exn e)
      | .outOfFuel => (es, .outOfFuel)

/-- Background task `index_existing_records(table_id)` (elasticsearch.py
lines 264–314): the bulk reindex over every record of one table.  Its
signature takes exactly ONE argument. -/
def index_existing_records (fuel : Nat) (store : Store) (es : EsState)
    (table_id : Nat) : EsState × RRes Unit :=
  match store.tables.find? (fun t => t.id == table_id) with
  | none => (es, .ok ())
  | some table =>
      index_existing_go fuel store table es
        (store.records.filter (fun r => r.table_id == table.id))

/-- Functions a background task can target. -/
inductive TaskFn where
  | fnIndexExistingRecords
  | fnBroadcast
deriving DecidableEq

/-- Positional argument of a dispatched background task. -/
inductive TaskArg where
  | argNat (n : Nat)
  | argStr (s : String)
deriving DecidableEq

/-- One `background_tasks.add_task(func, *args)` entry: FastAPI stores the
function and the positional arguments and calls `func(*args)` after the
response is sent. -/
structure BackgroundTask where
  fn : TaskFn
  args : List TaskArg
deriving DecidableEq

/-- Invocation of a dispatched background task.  Python checks the argument
count against the function's signature at call time:
`index_existing_records` takes exactly one positional argument (the table
id), so any other argument list raises TypeError inside the task runner and
the search index is left untouched.  Broadcasts never touch the index. -/
def run_background_task (fuel : Nat) (store : Store) (es : EsState)
    (t : BackgroundTask) : EsState × RRes Unit :=
  match t.fn, t.args with
  | .fnIndexExistingRecords, [.argNat table_id] =>
      index_existing_records fuel store es table_id
  | .fnIndexExistingRecords, _ => (es, .exn .typeError)
  | .fnBroadcast, _ => (es, .ok ())

/-- Request body `TableCreate` (schemas/schema.py). -/
structure TableCreate where
  name : String
  display_format : Option String
  display_format_secondary : Option String

/-- Request body `ColumnCreate` (schemas/schema.py). -/
structure ColumnCreate where
  name : String
  data_type : String
  is_list : Bool
  constraints : Option String
  required : Bool
  unique : Bool
  enum_id : Option Nat
  reference_table_id : Option Nat
  reference_link_table_id : Option Nat
  searchable : Bool

/-- Endpoint `update_table_endpoint` (schema.py lines 105–150): updates
name and the two display formats, broadcasts, and dispatches
`index_existing_records` with ONE argument (the table id) when either
display format changed.  Broadcast payloads do not matter to any claim and
are modelled as argument-free tasks. -/
def update_table_endpoint (store : Store) (table_id : Nat) (table : TableCreate) :
    Except HTTPException (Store × List BackgroundTask) :=
  match store.tables.find? (fun t => t.id == table_id) with
  | none => .error ⟨404, "Table not found"⟩
  | some db_table =>
      let display_format_changed := db_table.display_format != table.display_format
      let display_format_secondary_changed :=
        db_table.display_format_secondary != table.display_format_secondary
      let updated := { db_table with
        name := table.name,
        display_format := table.display_format,
        display_format_secondary := table.display_format_secondary }
      let store2 := { store with
        tables := store.tables.map (fun t => if t.id == table_id then updated else t) }
      let tasks : List BackgroundTask := [⟨.fnBroadcast, []⟩]
      let tasks :=
        if display_format_changed || display_format_secondary_changed then
          tasks ++ [⟨.fnIndexExistingRecords, [.argNat updated.id]⟩]
        else tasks
      .ok (store2, tasks)

/-- Endpoint `update_column_endpoint` (schema.py lines 301–361): rebuilds
the constraints string, updates the column row, broadcasts, and — when
`searchable` flips from false to true — dispatches `index_existing_records`
with TWO arguments, `(db_column.table_id, db_column.name)`, although the
function's signature takes only the table id. -/
def update_column_endpoint (store : Store) (column_id : Nat) (column : ColumnCreate) :
    Except HTTPException (Store × List BackgroundTask) :=
  match store.columns.find? (fun c => c.id == column_id) with
  | none => .error ⟨404, "Column not found"⟩
  | some db_column =>
      let constraints :=
        (if column.required then ["NOT NULL"] else []) ++
        (if column.unique then ["UNIQUE"] else []) ++
        (match column.constraints with
          | some c => if c == "" then [] else [c]
          | none => [])
      let constraints_str :=
        if constraints.isEmpty then none else some (String.intercalate " " constraints)
      let previous_searchable := db_column.searchable
      let updated := { db_column with
        name := column.name, data_type := column.data_type,
        is_list := column.is_list, constraints := constraints_str,
        required := column.required, unique := column.unique,
        enum_id := column.enum_id, searchable := column.searchable }
      let store2 := { store with
        columns := store.columns.map (fun c => if c.id == column_id then updated else c) }
      let tasks : List BackgroundTask := [⟨.fnBroadcast, []⟩]
      let tasks :=
        if !previous_searchable && updated.searchable then
          tasks ++ [⟨.fnIndexExistingRecords,
            [.argNat updated.table_id, .argStr updated.name]⟩]
        else tasks
      .ok (store2, tasks)

/-- Invariant relating the link rows of one (link table, from record) scope
to a normalized payload field: every in-scope row's target is the target of
the first payload entry with that target, whose attributes the row already
carries, and every payload entry's target has an in-scope row.
`process_link_field` establishes it when the payload's targets are
duplicate-free, and a scope satisfying it reconciles to zero writes. -/
def field_synced (links : List LinkRecord) (ltid rid : Nat)
    (items : LinkItems) : Prop :=
  (∀ lr ∈ links, link_scope ltid rid lr = true →
    ∃ nl rest, items.filter (fun x => x.1 == lr.to_record_id) = nl :: rest ∧
      pyPairsBEq lr.data nl.2 = true)
  ∧ (∀ nl ∈ items, ∃ lr, lr ∈ links ∧ link_scope ltid rid lr = true ∧
      lr.to_record_id = nl.1)

/-! ### Concrete fixtures used by the claim theorems -/

/-- Table `person` with a reference column; see `refStore`. -/
def refTable : Table := ⟨1, "person", none, none⟩

/-- Store for the reference-validation claims: table `person` has column
`boss`, a non-list `reference` bound to table `company` (id 2), and there
are NO records at all, so any reference id dangles. -/
def refStore : Store :=
  { tables := [refTable, ⟨2, "company", none, none⟩],
    columns := [⟨4, 1, "boss", "reference", false, none, none, some 2, none,
                 false, false, false⟩],
    records := [], enums := [], enum_values := [], link_tables := [],
    link_records := [] }

/-- Table `user` with a unique column; see `uniqueStore`. -/
def uniqueTable : Table := ⟨1, "user", none, none⟩

/-- Store for the unique-constraint claim: column `email` is a scalar
string column with `unique := true`, and record 1 already holds the value
`"x@y"` for it. -/
def uniqueStore : Store :=
  { tables := [uniqueTable],
    columns := [⟨3, 1, "email", "string", false, none, none, none, none,
                 false, true, false⟩],
    records := [⟨1, 1, [("email", .vStr "x@y")], "c", "u"⟩],
    enums := [], enum_values := [], link_tables := [], link_records := [] }

/-- Table `thing` with one column per defect kind; see `defectStore`. -/
def defectTable : Table := ⟨1, "thing", none, none⟩

/-- Store for the validation-completeness claim: required string `name`,
integer `age`, enum `color` (bound to enum 5 with values red/blue), and
list-reference `tags` bound to table 2; no record with id 7 exists. -/
def defectStore : Store :=
  { tables := [defectTable, ⟨2, "tag", none, none⟩],
    columns :=
      [⟨11, 1, "name", "string", false, none, none, none, none, true, false, false⟩,
       ⟨12, 1, "age", "integer", false, none, none, none, none, false, false, false⟩,
       ⟨13, 1, "color", "enum", false, none, some 5, none, none, false, false, false⟩,
       ⟨14, 1, "tags", "reference", true, none, none, some 2, none, false, false, false⟩],
    records := [], enums := [⟨5, "colors"⟩],
    enum_values := [⟨1, 5, "red"⟩, ⟨2, 5, "blue"⟩],
    link_tables := [], link_records := [] }

/-- Table `A` whose display format is the single placeholder `b`; see
`chainStore`. -/
def chainTableA : Table := ⟨1, "A", some "\x7bb\x7d", none⟩

/-- Record of table `A` whose `b` field references record 20; see
`chainStore`. -/
def chainRecordA : Record := ⟨10, 1, [("b", .vInt 20)], "c", "u"⟩

/-- Store for the two-level display chain A→B: `A.b` references table `B`
(display format the placeholder `name`), record 10 of `A` points to record
20 of `B`, named `"Acme"`. -/
def chainStore : Store :=
  { tables := [chainTableA, ⟨2, "B", some "\x7bname\x7d", none⟩],
    columns :=
      [⟨5, 1, "b", "reference", false, none, none, some 2, none, false, false, false⟩,
       ⟨6, 2, "name", "string", false, none, none, none, none, true, false, true⟩],
    records := [chainRecordA, ⟨20, 2, [("name", .vStr "Acme")], "c", "u"⟩],
    enums := [], enum_values := [], link_tables := [], link_records := [] }

/-- Table whose display format is the dotted placeholder `a.b`; see
`dottedStore`. -/
def dottedTable : Table := ⟨1, "A", some "\x7ba.b\x7d", none⟩

/-- Record with an empty data map, so the dotted placeholder's head `a` is
a missing key; see `dottedStore`. -/
def dottedRecord : Record := ⟨3, 1, [], "c", "u"⟩

/-- Store for the dotted-placeholder counterexample: one table, no columns,
one record with no data. -/
def dottedStore : Store :=
  { tables := [dottedTable], columns := [], records := [dottedRecord],
    enums := [], enum_values := [], link_tables := [], link_records := [] }

/-- Table whose display format names only the missing key `missing`; see
`missingKeyStore`. -/
def missingKeyTable : Table := ⟨1, "C", some "\x7bmissing\x7d", none⟩

/-- Record holding only the unrelated key `other`; see `missingKeyStore`. -/
def missingKeyRecord : Record := ⟨4, 1, [("other", .vStr "z")], "c", "u"⟩

/-- Store for the undotted missing-key rendering case. -/
def missingKeyStore : Store :=
  { tables := [missingKeyTable], columns := [], records := [missingKeyRecord],
    enums := [], enum_values := [], link_tables := [], link_records := [] }

/-- Table with no display formats at all; see `noFormatStore`. -/
def noFormatTable : Table := ⟨1, "D", none, none⟩

/-- Record of the format-less table; see `noFormatStore`. -/
def noFormatRecord : Record := ⟨4, 1, [("x", .vStr "y")], "c", "u"⟩

/-- Store for the missing-template rendering case. -/
def noFormatStore : Store :=
  { tables := [noFormatTable], columns := [], records := [noFormatRecord],
    enums := [], enum_values := [], link_tables := [], link_records := [] }

/-- Store for the search-document claim: table `T` has the single column
`a` with `searchable := false`, and record 10 holds `a = "x"`. -/
def nonSearchableStore : Store :=
  { tables := [⟨1, "T", none, none⟩],
    columns := [⟨2, 1, "a", "string", false, none, none, none, none,
                 false, false, false⟩],
    records := [⟨10, 1, [("a", .vStr "x")], "c", "u"⟩],
    enums := [], enum_values := [], link_tables := [], link_records := [] }

/-- Store for the bulk-reindex claim: table 1 (display format the literal
`"x"`), its column 7 `a` with `searchable := false`, and two records. -/
def reindexStore : Store :=
  { tables := [⟨1, "t", some "x", none⟩],
    columns := [⟨7, 1, "a", "string", false, none, none, none, none,
                 false, false, false⟩],
    records := [⟨21, 1, [], "c", "u"⟩, ⟨22, 1, [], "c", "u"⟩],
    enums := [], enum_values := [], link_tables := [], link_records := [] }

/-- Column payload flipping `searchable` to true for column 7 of
`reindexStore`. -/
def flipSearchable : ColumnCreate :=
  { name := "a", data_type := "string", is_list := false, constraints := none,
    required := false, unique := false, enum_id := none,
    reference_table_id := none, reference_link_table_id := none,
    searchable := true }

/-- State of `reindexStore` after the table update that changes the display
format to the literal `"y"`. -/
def tableUpdatedStore : Store :=
  { reindexStore with tables := [⟨1, "t", some "y", none⟩] }

/-- State of `reindexStore` after the column update that flips column 7's
`searchable` flag to true. -/
def columnUpdatedStore : Store :=
  { reindexStore with
    columns := [⟨7, 1, "a", "string", false, none, none, none, none,
                false, false, true⟩] }

/-- Store for the cascade claim: table 1 owns column 2 (and nothing else),
so its deletion must cascade to that column — or fail. -/
def cascadeStore : Store :=
  { tables := [⟨1, "T", none, none⟩],
    columns := [⟨2, 1, "a", "string", false, none, none, none, none,
                 false, false, false⟩],
    records := [], enums := [], enum_values := [], link_tables := [],
    link_records := [] }

/-! ## Theorems -/

mutual
theorem pyValBEq_refl : ∀ v : PyVal, pyValBEq v v = true
  | .vNone => rfl
  | .vBool b => by simp [pyValBEq]
  | .vInt n => by simp [pyValBEq]
  | .vFloat q => by simp [pyValBEq]
  | .vStr s => by simp [pyValBEq]
  | .vList xs => by simp only [pyValBEq]; exact pyListBEq_refl xs
  | .vDict xs => by simp only [pyValBEq]; exact pyPairsBEq_refl xs

theorem pyListBEq_refl : ∀ xs : List PyVal, pyListBEq xs xs = true
  | [] => rfl
  | x :: xs => by
      simp only [pyListBEq, Bool.and_eq_true]
      exact ⟨pyValBEq_refl x, pyListBEq_refl xs⟩

theorem pyPairsBEq_refl : ∀ xs : List (String × PyVal), pyPairsBEq xs xs = true
  | [] => rfl
  | (k, v) :: xs => by
      simp only [pyPairsBEq, Bool.and_eq_true, beq_self_eq_true, true_and]
      exact ⟨pyValBEq_refl v, pyPairsBEq_refl xs⟩
end

/-! ### General list helpers -/

theorem filter_map_comm {α : Type} (g : α → α) (p : α → Bool)
    (h : ∀ a, p (g a) = p a) :
    ∀ l : List α, (l.map g).filter p = (l.filter p).map g := by
  intro l
  induction l with
  | nil => rfl
  | cons a l ih =>
      simp only [List.map_cons, List.filter_cons, h a]
      cases hp : p a <;> simp [ih]

theorem find?_map_comm {α : Type} (g : α → α) (q : α → Bool)
    (h : ∀ a, q (g a) = q a) :
    ∀ l : List α, (l.map g).find? q = (l.find? q).map g := by
  intro l
  induction l with
  | nil => rfl
  | cons a l ih =>
      simp only [List.map_cons, List.find?_cons, h a]
      cases hq : q a <;> simp [ih]

theorem filterMap_id_of_mem {α : Type} (f : α → Option α) :
    ∀ l : List α, (∀ a ∈ l, f a = some a) → l.filterMap f = l := by
  intro l
  induction l with
  | nil => intro _; rfl
  | cons a l ih =>
      intro h
      rw [List.filterMap_cons, h a (List.mem_cons_self a l)]
      rw [ih (fun b hb => h b (List.mem_cons_of_mem a hb))]

theorem length_flatMap_eq_sum {α β : Type} (f : α → List β) :
    ∀ l : List α, (l.flatMap f).length = (l.map (fun a => (f a).length)).sum := by
  intro l
  induction l with
  | nil => rfl
  | cons a l ih => simp [List.flatMap_cons, ih]

/-! ### C10 -/

/-- C10: for every store and table name, the search endpoint's
"No searchable fields defined for this table" branch is unreachable — the
guard reduces to 404 (unknown table) or to the field list, and that list
always contains `display_value` and `display_value_secondary`, even for a
table with zero searchable columns, so the free-text search runs against
the display-value fields instead of being rejected. -/
theorem search_records_never_rejects :
    (∀ (store : Store) (table_name : String),
      search_records_guard store table_name =
        (match store.tables.find? (fun t => t.name == table_name) with
         | none => .error ⟨404, "Table not found"⟩
         | some table => .ok (search_records_fields store table)))
    ∧ (∀ (store : Store) (table : Table),
        "display_value" ∈ search_records_fields store table ∧
        "display_value_secondary" ∈ search_records_fields store table) := by
  have happ : ∀ l : List String,
      (l ++ ["display_value", "display_value_secondary"]).isEmpty = false := by
    intro l; cases l <;> rfl
  constructor
  · intro store table_name
    unfold search_records_guard
    cases store.tables.find? (fun t => t.name == table_name) with
    | none => rfl
    | some table =>
        have hne : (search_records_fields store table).isEmpty = false := by
          simp only [search_records_fields]
          exact happ _
        simp [hne]
  · intro store table
    simp only [search_records_fields]
    refine ⟨?_, ?_⟩ <;> simp

/-! ### C2 -/

/-- C2 counterexample: in `refStore` no record exists at all, so the
reference id 999 supplied for the `reference` column `boss` resolves to
nothing — yet validation reports NO error, where the claim demands an
error for every unresolved id. -/
theorem validate_accepts_dangling_reference :
    validate_record_data refStore refTable [("boss", .vInt 999)]
      (fun _ => false) = [] := by rfl

/-- C2 amended: for a payload field whose column has data type `reference`,
validation checks only the value's integer shape (a single int, or — when
`is_list` — a list of ints); it never consults the record store, so ids
that do not resolve, or resolve to a record of the wrong table, produce no
error.  First conjunct: the whole validator is unchanged when all records
and link rows are dropped from the store.  Second conjunct: on the concrete
reference column `boss`, the outcome depends only on `isinstance(v, int)`. -/
theorem validate_reference_checks_shape_only :
    (∀ (store : Store) (table : Table) (data : PyDict)
        (parse_ok : String → Bool),
      validate_record_data store table data parse_ok =
        validate_record_data { store with records := [], link_records := [] }
          table data parse_ok)
    ∧ (∀ (v : PyVal) (parse_ok : String → Bool),
        validate_record_data refStore refTable [("boss", v)] parse_ok =
          if isinstance_int v then []
          else ["Field 'boss' must be an integer."]) := by
  constructor
  · intro store table data po
    obtain ⟨ts, cs, rs, es, evs, lts, lrs⟩ := store
    rfl
  · intro v po
    cases v <;> rfl

/-! ### C3 -/

/-- C3 counterexample: record 1 of `uniqueStore` already holds
`email = "x@y"` in a scalar column marked `unique`, and the claim demands a
"duplicate" error for a second write of the same value — but validation of
that payload returns NO error at all. -/
theorem validate_accepts_duplicate_unique_value :
    validate_record_data uniqueStore uniqueTable [("email", .vStr "x@y")]
      (fun _ => false) = [] := by rfl

/-- C3 amended: validation never performs any duplicate check — the
`unique` flag of the columns is ignored entirely (flipping it arbitrarily
on every column leaves the validator's output unchanged; together with
`validate_reference_checks_shape_only`, which shows the record store is
never read, no write can be rejected for duplicating another record's
value, and a record updating to its own stored value is likewise
accepted). -/
theorem validate_ignores_unique_flag :
    ∀ (store : Store) (table : Table) (data : PyDict)
      (parse_ok : String → Bool) (f : Column → Bool),
      validate_record_data
        { store with columns := store.columns.map (fun c => { c with unique := f c }) }
        table data parse_ok =
      validate_record_data store table data parse_ok := by
  intro store table data po f
  obtain ⟨ts, cs, rs, es, evs, lts, lrs⟩ := store
  simp only [validate_record_data]
  rw [filter_map_comm (fun c => { c with unique := f c })
    (fun c => c.table_id == table.id) (fun c => by cases c; rfl) cs]
  congr 1
  · simp only [missing_required_errors]
    rw [List.filterMap_map]
    exact List.filterMap_congr (fun c _ => by cases c; rfl)
  · apply congrArg
    funext kv
    simp only [validate_field_errors]
    rw [find?_map_comm (fun c : Column => { c with unique := f c })
      (fun c : Column => c.name == kv.1) (fun c => by cases c; rfl)]
    cases (cs.filter (fun c => c.table_id == table.id)).find?
        (fun c => c.name == kv.1) with
    | none => rfl
    | some c => cases c; rfl

/-! ### C4 -/

/-- C4 counterexample: the payload has exactly one defect from the claim's
list — the list-reference field `tags` carries the dangling id 7 (no record
7 exists in `defectStore`) — so the claim demands exactly one error, but
validation reports zero. -/
theorem validate_misses_dangling_reference_defect :
    validate_record_data defectStore defectTable
      [("name", .vStr "ok"), ("tags", .vList [.vInt 7])]
      (fun _ => false) = [] := by rfl

/-- C4 amended: validation is not fail-fast, and the total error count is
the number of missing required columns plus the sum of the per-field error
counts over the whole payload (first conjunct); a payload with the three
defects validation does detect — missing required field, wrong type, bad
enum value — yields exactly those three errors, one per defect (second
conjunct).  Dangling references and duplicate unique values, however, are
not among the detected defect kinds and contribute zero errors. -/
theorem validate_collects_all_errors :
    (∀ (store : Store) (table : Table) (data : PyDict)
        (parse_ok : String → Bool),
      (validate_record_data store table data parse_ok).length =
        (missing_required_errors
            (store.columns.filter (fun c => c.table_id == table.id)) data).length
        + (data.map (fun kv =>
            (validate_field_errors store
              (store.columns.filter (fun c => c.table_id == table.id))
              parse_ok kv).length)).sum)
    ∧ validate_record_data defectStore defectTable
        [("age", .vStr "old"), ("color", .vStr "green")] (fun _ => false) =
      ["Missing required field: name", "Field 'age' must be an integer.",
       "Field 'color' has invalid enum value: 'green'. Allowed values: red, blue"] := by
  constructor
  · intro store table data po
    simp only [validate_record_data]
    rw [List.length_append, length_flatMap_eq_sum]
  · rfl

/-! ### C5 -/

/-- C5: link reconciliation computes the exact set difference.  For any
attribute dicts, with existing edges to targets 1, 2, 3 and a payload
targeting 2, 3, 4 whose attributes for the kept targets equal the stored
ones, `process_link_data`'s field loop inserts exactly one LinkRecord (to
4), deletes exactly one (to 1), performs zero updates, and leaves the kept
edges to 2 and 3 byte-for-byte unchanged in the resulting state. -/
theorem process_link_field_set_difference :
    ∀ (rid : Nat) (d1 a2 a3 a4 : PyDict),
      process_link_field
        [⟨101, 7, rid, 1, d1⟩, ⟨102, 7, rid, 2, a2⟩, ⟨103, 7, rid, 3, a3⟩]
        7 rid [(2, a2), (3, a3), (4, a4)] =
      ([⟨102, 7, rid, 2, a2⟩, ⟨103, 7, rid, 3, a3⟩, ⟨0, 7, rid, 4, a4⟩],
       ⟨[⟨0, 7, rid, 4, a4⟩], [], [⟨101, 7, rid, 1, d1⟩]⟩) := by
  intro rid d1 a2 a3 a4
  simp [process_link_field, link_scope, link_mutate, link_insert, pyPairsBEq_refl]

/-! ### C7 -/

/-- C7 counterexample: `dottedTable`'s display format is the dotted
placeholder `a.b` and the record's data has no key `a`; the claim says a
placeholder naming a missing key substitutes the empty string and that
rendering never raises, but the render raises AttributeError (the standard
formatter splits the dotted path before the custom `get_value` runs and
resolves `b` with plain `getattr` on the empty-string substitution). -/
theorem generate_display_value_raises_on_dotted_placeholder :
    generate_display_value 2 dottedStore dottedTable dottedRecord =
      .exn .attributeError := by rfl

/-- C7 amended: the two-level chain A→B renders `"Acme"`; a table with no
display-format template renders the empty string (whenever reference
resolution itself completes); and an UNDOTTED placeholder naming a missing
key substitutes the empty string.  A dotted placeholder, however, aborts
the render with AttributeError once its head resolves to a non-attribute
value (see the counterexample), so rendering can raise. -/
theorem generate_display_value_renders :
    generate_display_value 10 chainStore chainTableA chainRecordA = .ok "Acme"
    ∧ (∀ (fuel : Nat) (store : Store) (table : Table) (record : Record)
        (d : PyDict),
        resolve_refs fuel store
            (store.columns.filter (fun c => c.table_id == table.id))
            record record.data = .ok d →
        table.display_format = none →
        generate_display_value (fuel + 1) store table record = .ok "")
    ∧ generate_display_value 2 missingKeyStore missingKeyTable missingKeyRecord =
        .ok "" := by
  refine ⟨by rfl, ?_, by rfl⟩
  intro fuel store table record d h1 h2
  simp only [generate_display_value, h1, h2, RRes.bind]

/-- C7 witness: the no-template conjunct of
`generate_display_value_renders` discharged at `noFormatStore` (fuel 1
suffices for the reference-resolution hypothesis, the store has no
columns). -/
theorem generate_display_value_renders_witness :
    generate_display_value 2 noFormatStore noFormatTable noFormatRecord =
      .ok "" :=
  generate_display_value_renders.2.1 1 noFormatStore noFormatTable
    noFormatRecord noFormatRecord.data (by rfl) (by rfl)

/-! ### C1 -/

theorem dictHasKey_dictSet_same (d : PyDict) (k : String) (v : PyVal) :
    dictHasKey (dictSet d k v) k = true := by
  unfold dictSet
  cases h : d.any (fun kv => kv.1 == k) with
  | false => simp [dictHasKey]
  | true =>
      simp only [if_pos rfl]
      rw [List.any_eq_true] at h
      obtain ⟨kv, hmem, hbeq⟩ := h
      rw [dictHasKey, List.any_eq_true]
      refine ⟨(k, v), List.mem_map.mpr ⟨kv, hmem, ?_⟩, by simp⟩
      simp [hbeq]

theorem dictHasKey_dictSet_mono (d : PyDict) (k' : String) (v : PyVal)
    (k : String) (h : dictHasKey d k = true) :
    dictHasKey (dictSet d k' v) k = true := by
  unfold dictSet
  rw [dictHasKey, List.any_eq_true] at h
  obtain ⟨kv, hmem, hbeq⟩ := h
  cases hall : d.any (fun kv => kv.1 == k') with
  | false =>
      rw [if_neg (by simp [hall])]
      rw [dictHasKey, List.any_eq_true]
      exact ⟨kv, List.mem_append_left _ hmem, hbeq⟩
  | true =>
      rw [if_pos rfl]
      rw [dictHasKey, List.any_eq_true]
      refine ⟨if kv.1 == k' then (k', v) else kv, List.mem_map.mpr ⟨kv, hmem, rfl⟩, ?_⟩
      cases hks : kv.1 == k' with
      | false => simpa [hks] using hbeq
      | true =>
          have h1 : kv.1 = k' := by exact eq_of_beq hks
          have h2 : kv.1 = k := by exact eq_of_beq hbeq
          simp [hks, ← h1, h2]

theorem foldl_dictSet_preserves (step : PyDict → (String × PyVal) → PyDict)
    (hmono : ∀ acc kv k, dictHasKey acc k = true → dictHasKey (step acc kv) k = true) :
    ∀ (data : PyDict) (acc : PyDict) (k : String),
      dictHasKey acc k = true → dictHasKey (data.foldl step acc) k = true := by
  intro data
  induction data with
  | nil => intro acc k h; exact h
  | cons kv rest ih =>
      intro acc k h
      exact ih (step acc kv) k (hmono acc kv k h)

theorem foldl_dictSet_hasKey (step : PyDict → (String × PyVal) → PyDict)
    (hsame : ∀ acc kv, dictHasKey (step acc kv) (py_lower kv.1) = true)
    (hmono : ∀ acc kv k, dictHasKey acc k = true → dictHasKey (step acc kv) k = true) :
    ∀ (data : PyDict) (acc : PyDict) (k : String),
      dictHasKey data k = true →
      dictHasKey (data.foldl step acc) (py_lower k) = true := by
  intro data
  induction data with
  | nil => intro acc k h; cases h
  | cons kv rest ih =>
      intro acc k h
      rw [dictHasKey, List.any_cons] at h
      cases hk : kv.1 == k with
      | true =>
          have : py_lower kv.1 = py_lower k := by rw [eq_of_beq hk]
          rw [List.foldl_cons]
          exact foldl_dictSet_preserves step hmono rest (step acc kv) (py_lower k)
            (this ▸ hsame acc kv)
      | false =>
          rw [hk, Bool.false_or] at h
          exact ih (step acc kv) k h

theorem esGet_es_index_doc (es : EsState) (i : String) (n : Nat) (doc : EsDoc) :
    esGet (es_index_doc es i n doc) i n = some doc := by
  simp [esGet, es_index_doc, List.find?_cons]

/-- C1 counterexample: in `nonSearchableStore` the only column `a` has
`searchable := false`, yet the document `index_record` writes on the
create/update path carries the entry `("a", "x")` in its data map — the
claim says the data map has no entry for a non-searchable column. -/
theorem index_record_keeps_nonsearchable_field :
    index_record 5 nonSearchableStore [] "T" 10 [("a", .vStr "x")] =
      .ok [("records_t", 10, ⟨1, [("a", .vStr "x")], "", "", "c", "u"⟩)] := by
  rfl

/-- C1 amended: the document `index_record` writes for a record create or
update carries, besides the display values and timestamps, an entry for
EVERY key of the written payload — lower-cased, with list values
comma-joined — regardless of the columns' `searchable` flags (only the bulk
reindex path `index_existing_records` filters on `searchable`).  First
conjunct: every payload key survives into `index_data_lower`.  Second
conjunct: whenever `index_record` resolves its record and table and
completes, the document stored under the record's id has exactly
`index_data_lower data` as its data map. -/
theorem index_record_documents_all_payload_keys :
    (∀ (data : PyDict) (k : String),
      dictHasKey data k = true →
      dictHasKey (index_data_lower data) (py_lower k) = true)
    ∧ (∀ (fuel : Nat) (store : Store) (es : EsState) (table_name : String)
        (record_id : Nat) (data : PyDict) (record : Record) (table : Table)
        (es' : EsState),
        store.records.find? (fun r => r.id == record_id) = some record →
        store.tables.find? (fun t => t.id == record.table_id) = some table →
        index_record fuel store es table_name record_id data = .ok es' →
        ∃ doc, esGet es' (get_index_name table_name) record_id = some doc ∧
          doc.data = index_data_lower data) := by
  constructor
  · intro data k h
    unfold index_data_lower
    refine foldl_dictSet_hasKey _ ?_ ?_ data [] k h
    · intro acc kv; exact dictHasKey_dictSet_same _ _ _
    · intro acc kv k' hk'; exact dictHasKey_dictSet_mono _ _ _ _ hk'
  · intro fuel store es table_name record_id data record table es' hrec htab hok
    simp only [index_record, hrec, htab] at hok
    cases hdv : generate_display_value fuel store table record with
    | exn e => rw [hdv] at hok; simp only [RRes.bind] at hok; cases hok
    | outOfFuel => rw [hdv] at hok; simp only [RRes.bind] at hok; cases hok
    | ok dv =>
        rw [hdv] at hok
        cases hdvs : generate_display_value_secondary fuel store table record with
        | exn e => rw [hdvs] at hok; simp only [RRes.bind] at hok; cases hok
        | outOfFuel => rw [hdvs] at hok; simp only [RRes.bind] at hok; cases hok
        | ok dvs =>
            rw [hdvs] at hok
            simp only [RRes.bind] at hok
            cases hok
            exact ⟨_, esGet_es_index_doc _ _ _ _, rfl⟩

/-- C1 witness: the amended statement discharged at `nonSearchableStore`
(the upper-case key `"A"` lands in the document under `"a"`, and the
concrete run stores exactly the lower-cased payload map). -/
theorem index_record_documents_all_payload_keys_witness :
    dictHasKey (index_data_lower [("A", .vStr "x")]) (py_lower "A") = true
    ∧ ∃ doc,
        esGet [("records_t", 10, ⟨1, [("a", .vStr "x")], "", "", "c", "u"⟩)]
          (get_index_name "T") 10 = some doc ∧
        doc.data = index_data_lower [("a", .vStr "x")] :=
  ⟨index_record_documents_all_payload_keys.1 [("A", .vStr "x")] "A" (by rfl),
   index_record_documents_all_payload_keys.2 5 nonSearchableStore [] "T" 10
     [("a", .vStr "x")] ⟨10, 1, [("a", .vStr "x")], "c", "u"⟩ ⟨1, "T", none, none⟩
     [("records_t", 10, ⟨1, [("a", .vStr "x")], "", "", "c", "u"⟩)]
     (by rfl) (by rfl) (by rfl)⟩

/-! ### C8 -/

/-- C8: of the two schema changes that must trigger a bulk reindex, only
the table-update path works.  Changing a display format dispatches
`index_existing_records` with the one argument its signature takes, and
running that task upserts a recomputed document for every record of the
table (conjuncts 1–2).  Flipping a column's `searchable` flag from false to
true dispatches the same function with TWO arguments
`(table_id, column_name)`; invoking it raises TypeError and reindexes
nothing — the search index stays empty (conjuncts 3–4). -/
theorem bulk_reindex_dispatch_outcomes :
    update_table_endpoint reindexStore 1 ⟨"t", some "y", none⟩ =
      .ok (tableUpdatedStore,
        [⟨.fnBroadcast, []⟩, ⟨.fnIndexExistingRecords, [.argNat 1]⟩])
    ∧ run_background_task 9 tableUpdatedStore []
        ⟨.fnIndexExistingRecords, [.argNat 1]⟩ =
      ([("records_t", 22, ⟨1, [], "y", "", "c", "u"⟩),
        ("records_t", 21, ⟨1, [], "y", "", "c", "u"⟩)], .ok ())
    ∧ update_column_endpoint reindexStore 7 flipSearchable =
      .ok (columnUpdatedStore,
        [⟨.fnBroadcast, []⟩,
         ⟨.fnIndexExistingRecords, [.argNat 1, .argStr "a"]⟩])
    ∧ run_background_task 9 columnUpdatedStore []
        ⟨.fnIndexExistingRecords, [.argNat 1, .argStr "a"]⟩ =
      ([], .exn .typeError) :=
  ⟨by rfl, by rfl, by rfl, by rfl⟩

/-! ### C9 -/

/-- C9: record deletion does cascade to LinkRecords — after any successful
`delete_record`, no LinkRecord with the deleted record as either endpoint
remains (first conjunct, stated over the endpoint's result for every store)
— but table deletion does NOT cascade: deleting table 1 of `cascadeStore`,
which owns one column, fails with HTTP 400 "Table deletion failed" and
leaves the store untouched, where the claim requires the column to be
removed (second conjunct). -/
theorem delete_cascade_outcomes :
    (∀ (store : Store) (table_name : String) (record_id : Nat),
      (delete_record store table_name record_id).map (fun s =>
        s.link_records.filter (fun lr =>
          lr.from_record_id == record_id || lr.to_record_id == record_id)) =
      (delete_record store table_name record_id).map (fun _ => []))
    ∧ delete_table_endpoint cascadeStore 1 =
        .error ⟨400, "Table deletion failed"⟩ := by
  constructor
  · intro store table_name record_id
    cases htab : store.tables.find? (fun t => t.name == table_name) with
    | none => simp [delete_record, htab, Except.map]
    | some table =>
        cases hrec : store.records.find?
            (fun r => r.id == record_id && r.table_id == table.id) with
        | none => simp [delete_record, htab, hrec, Except.map]
        | some r =>
            simp [delete_record, htab, hrec, Except.map, List.filter_filter,
              Bool.and_not_self]
            intro a _ h h1
            exact h.resolve_left h1
  · rfl

/-! ### C6 -/

/-- C6 counterexample: the payload field targets record 5 twice with
different attribute dicts.  The first run inserts two edges to 5 (both
target ids are in `to_add`); rerunning the identical payload immediately
afterwards performs ONE attribute update — the second edge's dict `q` is
compared against the first matching payload entry `p` — where the claim
demands zero inserts, deletes and updates for every payload. -/
theorem process_link_data_second_run_writes :
    (process_link_data
        (process_link_data [] 9
          [(1, [(5, [("x", .vStr "p")]), (5, [("x", .vStr "q")])])]).1
        9 [(1, [(5, [("x", .vStr "p")]), (5, [("x", .vStr "q")])])]).2.map
      (fun ops => ops.updates.length) = [1] := by rfl

theorem contains_true_iff {α : Type} [BEq α] [LawfulBEq α] {l : List α} {a : α} :
    l.contains a = true ↔ a ∈ l := List.elem_iff

theorem contains_false_iff {α : Type} [BEq α] [LawfulBEq α] {l : List α} {a : α} :
    l.contains a = false ↔ a ∉ l := by
  constructor
  · intro h hm
    rw [contains_true_iff.mpr hm] at h
    cases h
  · intro h
    cases hc : l.contains a with
    | false => rfl
    | true => exact absurd (contains_true_iff.mp hc) h

theorem filter_key_of_pairwise :
    ∀ (items : LinkItems), (items.map Prod.fst).Pairwise (· ≠ ·) →
      ∀ nl ∈ items, items.filter (fun x => x.1 == nl.1) = [nl] := by
  intro items
  induction items with
  | nil => intro _ nl h; cases h
  | cons a rest ih =>
      intro hp nl hmem
      rw [List.map_cons, List.pairwise_cons] at hp
      obtain ⟨ha, hrest⟩ := hp
      rcases List.mem_cons.mp hmem with rfl | hm
      · rw [List.filter_cons, if_pos (by simp)]
        have hempty : rest.filter (fun x => x.1 == nl.1) = [] := by
          apply List.filter_eq_nil_iff.mpr
          intro b hb
          have : nl.1 ≠ b.1 := ha b.1 (List.mem_map.mpr ⟨b, hb, rfl⟩)
          simp only [Bool.not_eq_true, beq_eq_false_iff_ne]
          exact fun he => this he.symm
        rw [hempty]
      · have hne : a.1 ≠ nl.1 := ha nl.1 (List.mem_map.mpr ⟨nl, hm, rfl⟩)
        rw [List.filter_cons, if_neg (by simp [hne])]
        exact ih hrest nl hm

theorem link_mutate_some_fields (items : LinkItems) (trem : List Nat)
    (lr lr2 : LinkRecord) (h : link_mutate items trem lr = some lr2) :
    lr2.link_table_id = lr.link_table_id ∧
      lr2.from_record_id = lr.from_record_id ∧
      lr2.to_record_id = lr.to_record_id := by
  unfold link_mutate at h
  cases hc : trem.contains lr.to_record_id with
  | true => rw [hc] at h; simp at h
  | false =>
      rw [hc] at h
      simp only [Bool.false_eq_true, if_false] at h
      cases hf : items.filter (fun x => x.1 == lr.to_record_id) with
      | nil =>
          rw [hf] at h
          injection h with h
          subst h
          exact ⟨rfl, rfl, rfl⟩
      | cons nl rest =>
          rw [hf] at h
          cases hb : pyPairsBEq lr.data nl.2 with
          | true =>
              simp only [hb, if_pos, Option.some.injEq] at h
              subst h
              exact ⟨rfl, rfl, rfl⟩
          | false =>
              simp only [hb, Bool.false_eq_true, if_false, Option.some.injEq] at h
              subst h
              exact ⟨rfl, rfl, rfl⟩

theorem link_mutate_some_scope (items : LinkItems) (trem : List Nat)
    (ltid rid : Nat) (lr lr2 : LinkRecord)
    (h : link_mutate items trem lr = some lr2) :
    link_scope ltid rid lr2 = link_scope ltid rid lr := by
  obtain ⟨h1, h2, _⟩ := link_mutate_some_fields items trem lr lr2 h
  unfold link_scope
  rw [h1, h2]

theorem link_mutate_not_removed (items : LinkItems) (trem : List Nat)
    (lr lr2 : LinkRecord) (h : link_mutate items trem lr = some lr2) :
    trem.contains lr.to_record_id = false := by
  unfold link_mutate at h
  cases hc : trem.contains lr.to_record_id with
  | true => rw [hc] at h; simp at h
  | false => rfl

theorem link_mutate_data (items : LinkItems) (trem : List Nat)
    (lr lr2 : LinkRecord) (nl : Nat × PyDict) (rest : LinkItems)
    (h : link_mutate items trem lr = some lr2)
    (hf : items.filter (fun x => x.1 == lr.to_record_id) = nl :: rest) :
    pyPairsBEq lr2.data nl.2 = true := by
  unfold link_mutate at h
  cases hc : trem.contains lr.to_record_id with
  | true => rw [hc] at h; simp at h
  | false =>
      rw [hc] at h
      simp only [Bool.false_eq_true, if_false] at h
      rw [hf] at h
      cases hb : pyPairsBEq lr.data nl.2 with
      | true =>
          simp only [hb, if_pos, Option.some.injEq] at h
          subst h
          exact hb
      | false =>
          simp only [hb, Bool.false_eq_true, if_false, Option.some.injEq] at h
          subst h
          exact pyPairsBEq_refl nl.2

theorem link_mutate_total (items : LinkItems) (trem : List Nat)
    (lr : LinkRecord) (hc : trem.contains lr.to_record_id = false) :
    ∃ lr2, link_mutate items trem lr = some lr2 := by
  unfold link_mutate
  rw [hc]
  simp only [Bool.false_eq_true, if_false]
  cases items.filter (fun x => x.1 == lr.to_record_id) with
  | nil => exact ⟨lr, rfl⟩
  | cons nl rest =>
      cases hb : pyPairsBEq lr.data nl.2 with
      | true => exact ⟨lr, by simp [hb]⟩
      | false => exact ⟨{ lr with data := nl.2 }, by simp [hb]⟩

theorem filter_filterMap_eq {α : Type} (p : α → Bool) (f : α → Option α)
    (l : List α)
    (h : ∀ a ∈ l, (p a = true → f a = some a) ∧
      (∀ b, f a = some b → p b = p a)) :
    (l.filterMap f).filter p = l.filter p := by
  induction l with
  | nil => rfl
  | cons a l ih =>
      have ha := h a (List.mem_cons_self a l)
      have hl := fun b hb => h b (List.mem_cons_of_mem a hb)
      rw [List.filterMap_cons, List.filter_cons]
      cases hfa : f a with
      | none =>
          cases hpa : p a with
          | true => rw [ha.1 hpa] at hfa; cases hfa
          | false => simp only [Bool.false_eq_true, if_false]; exact ih hl
      | some b =>
          have hpb : p b = p a := ha.2 b hfa
          rw [List.filter_cons, hpb]
          cases hpa : p a with
          | true =>
              have : b = a := by
                have h2 := ha.1 hpa
                rw [h2] at hfa
                injection hfa with h3
                exact h3.symm
              rw [this]
              simp only [if_pos]
              rw [ih hl]
          | false =>
              simp only [Bool.false_eq_true, if_false]
              exact ih hl

theorem process_link_field_establishes (links : List LinkRecord)
    (ltid rid : Nat) (items : LinkItems)
    (hdist : (items.map Prod.fst).Pairwise (· ≠ ·)) :
    field_synced (process_link_field links ltid rid items).1 ltid rid items := by
  constructor
  · intro lr hmem hscope
    simp only [process_link_field] at hmem
    rcases List.mem_append.mp hmem with h2 | hins
    · rcases List.mem_filterMap.mp h2 with ⟨lr0, hlr0, hf⟩
      cases hs0 : link_scope ltid rid lr0 with
      | false =>
          rw [hs0] at hf
          simp only [Bool.false_eq_true, if_false, Option.some.injEq] at hf
          subst hf
          rw [hscope] at hs0
          cases hs0
      | true =>
          rw [hs0] at hf
          simp only [if_pos] at hf
          have hto : lr.to_record_id = lr0.to_record_id :=
            (link_mutate_some_fields _ _ _ _ hf).2.2
          have hnr := link_mutate_not_removed _ _ _ _ hf
          have hmemex : lr0.to_record_id ∈
              (links.filter (link_scope ltid rid)).map (fun l => l.to_record_id) :=
            List.mem_map.mpr ⟨lr0, List.mem_filter.mpr ⟨hlr0, hs0⟩, rfl⟩
          have hnot := contains_false_iff.mp hnr
          have hin : lr0.to_record_id ∈ items.map (fun nl => nl.1) := by
            by_contra hno
            apply hnot
            apply List.mem_filter.mpr
            refine ⟨hmemex, ?_⟩
            rw [contains_false_iff.mpr hno]
            rfl
          rcases List.mem_map.mp hin with ⟨nl0, hnl0, hfst⟩
          have hfnl := filter_key_of_pairwise items hdist nl0 hnl0
          rw [hfst] at hfnl
          refine ⟨nl0, [], ?_, ?_⟩
          · rw [hto]; exact hfnl
          · exact link_mutate_data items _ lr0 lr nl0 [] hf hfnl
    · rcases List.mem_map.mp hins with ⟨nl0, hnl0f, hmk⟩
      have hnl0 : nl0 ∈ items := (List.mem_filter.mp hnl0f).1
      have hfnl := filter_key_of_pairwise items hdist nl0 hnl0
      subst hmk
      exact ⟨nl0, [], hfnl, pyPairsBEq_refl nl0.2⟩
  · intro nl hnl
    by_cases hex : nl.1 ∈
        (links.filter (link_scope ltid rid)).map (fun l => l.to_record_id)
    · rcases List.mem_map.mp hex with ⟨lr0, hlr0f, hto⟩
      obtain ⟨hlr0, hs0⟩ := List.mem_filter.mp hlr0f
      have hnc : (((links.filter (link_scope ltid rid)).map
            (fun l => l.to_record_id)).filter
            (fun i => !(items.map (fun nl => nl.1)).contains i)).contains
          lr0.to_record_id = false := by
        apply contains_false_iff.mpr
        intro hmem2
        have h3 := (List.mem_filter.mp hmem2).2
        have h4 : lr0.to_record_id ∉ items.map (fun nl => nl.1) :=
          contains_false_iff.mp (by simpa using h3)
        rw [hto] at h4
        exact h4 (List.mem_map.mpr ⟨nl, hnl, rfl⟩)
      obtain ⟨lr2, hmut⟩ := link_mutate_total items _ lr0 hnc
      refine ⟨lr2, ?_, ?_, ?_⟩
      · simp only [process_link_field]
        apply List.mem_append.mpr
        left
        apply List.mem_filterMap.mpr
        refine ⟨lr0, hlr0, ?_⟩
        rw [hs0]
        simp only [if_pos]
        exact hmut
      · rw [link_mutate_some_scope items _ ltid rid lr0 lr2 hmut]
        exact hs0
      · rw [(link_mutate_some_fields items _ lr0 lr2 hmut).2.2]
        exact hto
    · have hadd : ((items.map (fun nl => nl.1)).filter
            (fun i => !((links.filter (link_scope ltid rid)).map
              (fun l => l.to_record_id)).contains i)).contains nl.1 = true := by
        apply contains_true_iff.mpr
        apply List.mem_filter.mpr
        refine ⟨List.mem_map.mpr ⟨nl, hnl, rfl⟩, ?_⟩
        rw [contains_false_iff.mpr hex]
        rfl
      refine ⟨link_insert ltid rid nl, ?_, by simp [link_scope, link_insert], rfl⟩
      simp only [process_link_field]
      apply List.mem_append.mpr
      right
      exact List.mem_map.mpr ⟨nl, List.mem_filter.mpr ⟨hnl, hadd⟩, rfl⟩

theorem process_link_field_preserves_scope (links : List LinkRecord)
    (ltid' rid' : Nat) (items' : LinkItems) (ltid rid : Nat)
    (hne : ltid ≠ ltid') :
    ((process_link_field links ltid' rid' items').1).filter
        (link_scope ltid rid) =
      links.filter (link_scope ltid rid) := by
  simp only [process_link_field]
  rw [List.filter_append]
  have hins : ((items'.filter (fun nl =>
      (((items'.map (fun nl => nl.1)).filter (fun i =>
        !((links.filter (link_scope ltid' rid')).map
          (fun lr => lr.to_record_id)).contains i)).contains nl.1))).map
        (link_insert ltid' rid')).filter (link_scope ltid rid) = [] := by
    apply List.filter_eq_nil_iff.mpr
    intro lr hlr
    rcases List.mem_map.mp hlr with ⟨nl, _, hmk⟩
    subst hmk
    simp [link_scope, link_insert, Ne.symm hne]
  rw [hins, List.append_nil]
  apply filter_filterMap_eq
  intro a _
  constructor
  · intro hpa
    have hfalse : link_scope ltid' rid' a = false := by
      unfold link_scope at hpa ⊢
      rw [Bool.and_eq_true] at hpa
      have heq : a.link_table_id = ltid := eq_of_beq hpa.1
      rw [heq, beq_eq_false_iff_ne.mpr hne]
      rfl
    rw [hfalse]
    simp
  · intro b hb
    cases hs : link_scope ltid' rid' a with
    | false =>
        rw [hs] at hb
        simp only [Bool.false_eq_true, if_false, Option.some.injEq] at hb
        subst hb
        rfl
    | true =>
        rw [hs] at hb
        simp only [if_pos] at hb
        exact link_mutate_some_scope _ _ ltid rid a b hb

theorem field_synced_of_filter_eq (links links' : List LinkRecord)
    (ltid rid : Nat) (items : LinkItems)
    (hf : links'.filter (link_scope ltid rid) = links.filter (link_scope ltid rid))
    (hs : field_synced links ltid rid items) :
    field_synced links' ltid rid items := by
  obtain ⟨hA, hB⟩ := hs
  constructor
  · intro lr hmem hscope
    have hm2 : lr ∈ links.filter (link_scope ltid rid) := by
      rw [← hf]
      exact List.mem_filter.mpr ⟨hmem, hscope⟩
    obtain ⟨hm, hsc⟩ := List.mem_filter.mp hm2
    exact hA lr hm hsc
  · intro nl hnl
    obtain ⟨lr, hm, hsc, hto⟩ := hB nl hnl
    have hm2 : lr ∈ links'.filter (link_scope ltid rid) := by
      rw [hf]
      exact List.mem_filter.mpr ⟨hm, hsc⟩
    obtain ⟨hm', hsc'⟩ := List.mem_filter.mp hm2
    exact ⟨lr, hm', hsc', hto⟩

theorem process_link_field_noop (links : List LinkRecord) (ltid rid : Nat)
    (items : LinkItems) (hs : field_synced links ltid rid items) :
    process_link_field links ltid rid items = (links, ⟨[], [], []⟩) := by
  obtain ⟨hA, hB⟩ := hs
  have hrem : ((links.filter (link_scope ltid rid)).map
      (fun lr => lr.to_record_id)).filter
      (fun i => !(items.map (fun nl => nl.1)).contains i) = [] := by
    apply List.filter_eq_nil_iff.mpr
    intro i hi
    rcases List.mem_map.mp hi with ⟨lr, hlrf, hto⟩
    obtain ⟨hm, hsc⟩ := List.mem_filter.mp hlrf
    obtain ⟨nl, rest, hfe, _⟩ := hA lr hm hsc
    have hnlf : nl ∈ items.filter (fun x => x.1 == lr.to_record_id) := by
      rw [hfe]
      exact List.mem_cons_self _ _
    obtain ⟨hnli, hbeq⟩ := List.mem_filter.mp hnlf
    have hmm : i ∈ items.map (fun nl => nl.1) := by
      rw [← hto, ← eq_of_beq hbeq]
      exact List.mem_map.mpr ⟨nl, hnli, rfl⟩
    intro hx
    rw [contains_true_iff.mpr hmm] at hx
    exact Bool.false_ne_true hx
  have hadd : (items.map (fun nl => nl.1)).filter
      (fun i => !((links.filter (link_scope ltid rid)).map
        (fun lr => lr.to_record_id)).contains i) = [] := by
    apply List.filter_eq_nil_iff.mpr
    intro i hi
    rcases List.mem_map.mp hi with ⟨nl, hnl, hto⟩
    obtain ⟨lr, hm, hsc, hlrto⟩ := hB nl hnl
    have hmm : i ∈ (links.filter (link_scope ltid rid)).map
        (fun lr => lr.to_record_id) :=
      List.mem_map.mpr ⟨lr, List.mem_filter.mpr ⟨hm, hsc⟩, by rw [hlrto, hto]⟩
    intro hx
    rw [contains_true_iff.mpr hmm] at hx
    exact Bool.false_ne_true hx
  simp only [process_link_field]
  rw [hrem, hadd]
  have hcnil : ∀ n : Nat, ([] : List Nat).contains n = false := fun _ => rfl
  have hins : (items.filter (fun nl => ([] : List Nat).contains nl.1)).map
      (link_insert ltid rid) = [] := by
    rw [List.filter_eq_nil_iff.mpr (fun nl _ => by rw [hcnil nl.1]; exact Bool.false_ne_true)]
    rfl
  have hupd : (links.filter (link_scope ltid rid)).filterMap (fun lr =>
      if ([] : List Nat).contains lr.to_record_id = true then none
      else
        match items.filter (fun nl => nl.1 == lr.to_record_id) with
        | [] => none
        | nl :: _ =>
            if pyPairsBEq lr.data nl.2 then none else some (lr.id, nl.2)) = [] := by
    apply List.filterMap_eq_nil_iff.mpr
    intro lr hlr
    obtain ⟨hm, hsc⟩ := List.mem_filter.mp hlr
    obtain ⟨nl, rest, hfe, hbeq⟩ := hA lr hm hsc
    rw [hcnil lr.to_record_id]
    simp only [Bool.false_eq_true, if_false]
    rw [hfe]
    simp only [hbeq, if_pos]
  have hdel : (links.filter (link_scope ltid rid)).filter
      (fun lr => ([] : List Nat).contains lr.to_record_id) = [] := by
    apply List.filter_eq_nil_iff.mpr
    intro lr _
    rw [hcnil lr.to_record_id]
    exact Bool.false_ne_true
  have hlinks2 : links.filterMap (fun lr =>
      if link_scope ltid rid lr = true then link_mutate items [] lr
      else some lr) = links := by
    apply filterMap_id_of_mem
    intro lr hlr
    cases hsc : link_scope ltid rid lr with
    | false => simp
    | true =>
        simp only [if_pos]
        obtain ⟨nl, rest, hfe, hbeq⟩ := hA lr hlr hsc
        unfold link_mutate
        rw [hcnil lr.to_record_id]
        simp only [Bool.false_eq_true, if_false]
        rw [hfe]
        simp only [hbeq, if_pos]
  rw [hins, hupd, hdel, hlinks2, List.append_nil]

theorem process_link_data_preserves_scope :
    ∀ (fields : List (Nat × LinkItems)) (links : List LinkRecord)
      (rid ltid : Nat),
      ltid ∉ fields.map Prod.fst →
      ((process_link_data links rid fields).1).filter (link_scope ltid rid) =
        links.filter (link_scope ltid rid) := by
  intro fields
  induction fields with
  | nil => intro links rid ltid _; rfl
  | cons g rest ih =>
      intro links rid ltid hnmem
      obtain ⟨ltid', items'⟩ := g
      rw [List.map_cons] at hnmem
      have h1 : ltid ≠ ltid' := fun he => hnmem (he ▸ List.mem_cons_self _ _)
      have h2 : ltid ∉ rest.map Prod.fst :=
        fun hm => hnmem (List.mem_cons_of_mem _ hm)
      simp only [process_link_data]
      rw [ih (process_link_field links ltid' rid items').1 rid ltid h2]
      exact process_link_field_preserves_scope links ltid' rid items' ltid rid h1

theorem process_link_data_establishes :
    ∀ (fields : List (Nat × LinkItems)) (links : List LinkRecord) (rid : Nat),
      (fields.map Prod.fst).Pairwise (· ≠ ·) →
      (∀ f ∈ fields, (f.2.map Prod.fst).Pairwise (· ≠ ·)) →
      ∀ f ∈ fields,
        field_synced (process_link_data links rid fields).1 f.1 rid f.2 := by
  intro fields
  induction fields with
  | nil => intro links rid _ _ f hf; cases hf
  | cons g rest ih =>
      intro links rid hp hitems f hf
      obtain ⟨ltid', items'⟩ := g
      rw [List.map_cons, List.pairwise_cons] at hp
      obtain ⟨hhead, htail⟩ := hp
      rcases List.mem_cons.mp hf with rfl | hfr
      · simp only [process_link_data]
        apply field_synced_of_filter_eq
          (process_link_field links ltid' rid items').1 _ ltid' rid items'
        · apply process_link_data_preserves_scope rest _ rid ltid'
          intro hm
          exact hhead ltid' hm rfl
        · exact process_link_field_establishes links ltid' rid items'
            (hitems _ (List.mem_cons_self _ _))
      · simp only [process_link_data]
        exact ih (process_link_field links ltid' rid items').1 rid htail
          (fun x hx => hitems x (List.mem_cons_of_mem _ hx)) f hfr

theorem process_link_data_noop :
    ∀ (fields : List (Nat × LinkItems)) (links : List LinkRecord) (rid : Nat),
      (∀ f ∈ fields, field_synced links f.1 rid f.2) →
      process_link_data links rid fields =
        (links, fields.map (fun _ => ⟨[], [], []⟩)) := by
  intro fields
  induction fields with
  | nil => intro links rid _; rfl
  | cons g rest ih =>
      intro links rid hsync
      obtain ⟨ltid', items'⟩ := g
      simp only [process_link_data]
      rw [process_link_field_noop links ltid' rid items'
        (hsync _ (List.mem_cons_self _ _))]
      rw [ih links rid (fun f hf => hsync f (List.mem_cons_of_mem _ hf))]
      rfl

/-- C6 amended: link reconciliation IS idempotent for well-formed payloads —
when the payload's relationship fields resolve to pairwise-distinct link
tables and no field repeats a target id, running `process_link_data` a
second time with the identical payload performs zero LinkRecord inserts,
zero attribute updates and zero deletes in every field, and leaves the
session's link rows exactly as the first run left them.  (With a repeated
target id the second run performs an update — see the counterexample — and
two fields sharing one link table make the runs fight each other.) -/
theorem process_link_data_idempotent :
    ∀ (links : List LinkRecord) (rid : Nat) (fields : List (Nat × LinkItems)),
      (fields.map Prod.fst).Pairwise (· ≠ ·) →
      (∀ f ∈ fields, (f.2.map Prod.fst).Pairwise (· ≠ ·)) →
      process_link_data (process_link_data links rid fields).1 rid fields =
        ((process_link_data links rid fields).1,
          fields.map (fun _ => ⟨[], [], []⟩)) := by
  intro links rid fields hp hitems
  exact process_link_data_noop fields _ rid
    (fun f hf => process_link_data_establishes fields links rid hp hitems f hf)

/-- C6 witness: idempotence discharged on a concrete two-field payload
(link tables 1 and 2, one edge to record 5 carrying an attribute and one
empty field): the second run is a no-op in both fields. -/
theorem process_link_data_idempotent_witness :
    process_link_data
        (process_link_data [] 9 [(1, [(5, [("x", .vStr "p")])]), (2, [(6, [])])]).1
        9 [(1, [(5, [("x", .vStr "p")])]), (2, [(6, [])])] =
      ((process_link_data [] 9 [(1, [(5, [("x", .vStr "p")])]), (2, [(6, [])])]).1,
        [⟨[], [], []⟩, ⟨[], [], []⟩]) :=
  process_link_data_idempotent [] 9
    [(1, [(5, [("x", .vStr "p")])]), (2, [(6, [])])] (by decide) (by decide)

end MiniCRM
